import Mathlib

/-!
Verification of the Foodie recipe app's persistence and form-save logic.

The definitions below are shallow embeddings of the JavaScript source:
  * `toggleFavorite`, `addMyRecipe`, `updateMyRecipe`, `deleteMyRecipe`,
    `getFavoritesRun`, `getMyRecipesRun`, ... embed `src/utils/storage.js`;
  * `filteredRecipes` embeds the `filteredRecipes` memo of `MainFeedScreen.js`;
  * `handleSaveAdd` / `handleSaveEdit` embed the `handleSave` callbacks of
    `AddRecipeScreen.js` and `EditRecipeScreen.js`;
  * `parseIntJS`, `jsOrInt`, `jsOrString` embed the JavaScript primitives
    `parseInt(s, 10)` and the `||` fallback idiom used by those callbacks.

A recipe object is modelled as a record with one `Option` field per key this
app ever reads or writes; `none` stands for a key that is absent (JavaScript
`undefined`).
-/

/-- A recipe object.  Every field the app reads or writes is present, with
`none` standing for an absent key (JavaScript `undefined`). -/
structure Recipe where
  id : Option String
  name : Option String
  image : Option String
  prepTime : Option String
  servings : Option Int
  calories : Option Int
  difficulty : Option String
  category : Option String
  ingredients : Option (List String)
  instructions : Option (List String)
deriving DecidableEq, Repr

/-- The record with every key absent (the JavaScript empty object), used as a
base for concrete test values. -/
def Recipe.empty : Recipe :=
  { id := none, name := none, image := none, prepTime := none,
    servings := none, calories := none, difficulty := none, category := none,
    ingredients := none, instructions := none }

-- ── storage.js: favorites ──────────────────────────────────────────────────

/-- Removal of the element at the first index where `recipeId` occurs:
`favorites.splice(favorites.indexOf(recipeId), 1)` in `storage.js` when
`indexOf` returned a valid index. -/
def spliceFirst : List String → String → List String
  | [], _ => []
  | a :: rest, x => if a = x then rest else a :: spliceFirst rest x

/-- `toggleFavorite` from `storage.js` (the non-throwing path): look up
`indexOf(recipeId)`; if found (`index > -1`) splice that single element out,
otherwise push the id at the end.  Returns the updated favorites array. -/
def toggleFavorite (favorites : List String) (recipeId : String) : List String :=
  if favorites.contains recipeId then
    spliceFirst favorites recipeId
  else
    favorites ++ [recipeId]

theorem spliceFirst_append_singleton (favs : List String) (x : String)
    (h : x ∉ favs) : spliceFirst (favs ++ [x]) x = favs := by
  induction favs with
  | nil => simp [spliceFirst]
  | cons a rest ih =>
      have hax : a ≠ x := by
        intro hc
        exact h (hc ▸ List.mem_cons_self a rest)
      have hrest : x ∉ rest := fun hc => h (List.mem_cons_of_mem a hc)
      simp [spliceFirst, hax, ih hrest]

/-- Claim C1: toggling a recipe id absent from the favorites collection first
appends it (so the result contains it, all other members unchanged, in
insertion order), and toggling again removes exactly it, restoring the
original collection. -/
theorem toggleFavorite_involution (favs : List String) (x : String)
    (h : x ∉ favs) :
    toggleFavorite favs x = favs ++ [x] ∧
    x ∈ toggleFavorite favs x ∧
    toggleFavorite (toggleFavorite favs x) x = favs ∧
    x ∉ toggleFavorite (toggleFavorite favs x) x := by
  have h1 : toggleFavorite favs x = favs ++ [x] := by
    simp [toggleFavorite, h]
  refine ⟨h1, ?_, ?_, ?_⟩
  · rw [h1]; simp
  · rw [h1]
    have hc2 : (favs ++ [x]).contains x = true := by simp
    simp [toggleFavorite, hc2, spliceFirst_append_singleton favs x h]
  · rw [h1]
    have hc2 : (favs ++ [x]).contains x = true := by simp
    simpa [toggleFavorite, hc2, spliceFirst_append_singleton favs x h] using h

/-- Concrete instantiation of `toggleFavorite_involution` at favorites
`["1", "7"]` and recipe id `"user_5"`. -/
theorem toggleFavorite_involution_witness :
    toggleFavorite ["1", "7"] "user_5" = ["1", "7", "user_5"] ∧
    "user_5" ∈ toggleFavorite ["1", "7"] "user_5" ∧
    toggleFavorite (toggleFavorite ["1", "7"] "user_5") "user_5" = ["1", "7"] ∧
    "user_5" ∉ toggleFavorite (toggleFavorite ["1", "7"] "user_5") "user_5" :=
  toggleFavorite_involution ["1", "7"] "user_5" (by decide)

-- ── storage.js: addMyRecipe ────────────────────────────────────────────────

/-- `addMyRecipe` from `storage.js` (the non-throwing path): spread the input
recipe, then overwrite `id` with `'user_' + Date.now().toString()` and
`category` with `'myfood'`, push the new record onto the stored collection,
persist, and return the new record.  `Date.now()` is taken as the explicit
parameter `now` (Unix milliseconds).  The result pairs the persisted
collection with the returned record. -/
def addMyRecipe (recipes : List Recipe) (recipe : Recipe) (now : Nat) :
    List Recipe × Recipe :=
  let newRecipe : Recipe :=
    { recipe with id := some ("user_" ++ toString now),
                  category := some "myfood" }
  (recipes ++ [newRecipe], newRecipe)

theorem digitChar_isDigit (n : Nat) (h : n < 10) :
    (Nat.digitChar n).isDigit = true := by
  interval_cases n <;> decide

theorem toDigitsCore_all_digits (fuel : Nat) :
    ∀ (n : Nat) (acc : List Char), (∀ c ∈ acc, c.isDigit = true) →
    ∀ c ∈ Nat.toDigitsCore 10 fuel n acc, c.isDigit = true := by
  induction fuel with
  | zero =>
      intro n acc hacc c hc
      simpa [Nat.toDigitsCore] using hacc c hc
  | succ f ih =>
      intro n acc hacc c hc
      have hd : (Nat.digitChar (n % 10)).isDigit = true :=
        digitChar_isDigit _ (Nat.mod_lt _ (by norm_num))
      have hacc2 : ∀ d ∈ Nat.digitChar (n % 10) :: acc, d.isDigit = true := by
        intro d hdm
        rcases List.mem_cons.mp hdm with rfl | hdm
        · exact hd
        · exact hacc d hdm
      simp only [Nat.toDigitsCore] at hc
      by_cases h0 : n / 10 = 0
      · rw [if_pos h0] at hc
        exact hacc2 c hc
      · rw [if_neg h0] at hc
        exact ih (n / 10) (Nat.digitChar (n % 10) :: acc) hacc2 c hc

theorem toDigitsCore_ne_nil (fuel : Nat) :
    ∀ (n : Nat) (acc : List Char), acc ≠ [] →
    Nat.toDigitsCore 10 fuel n acc ≠ [] := by
  induction fuel with
  | zero =>
      intro n acc h
      simpa [Nat.toDigitsCore] using h
  | succ f ih =>
      intro n acc _
      simp only [Nat.toDigitsCore]
      by_cases h0 : n / 10 = 0
      · rw [if_pos h0]
        exact List.cons_ne_nil _ _
      · rw [if_neg h0]
        exact ih (n / 10) _ (List.cons_ne_nil _ _)

theorem toDigits_ne_nil (n : Nat) : Nat.toDigits 10 n ≠ [] := by
  show Nat.toDigitsCore 10 (n + 1) n [] ≠ []
  simp only [Nat.toDigitsCore]
  by_cases h0 : n / 10 = 0
  · rw [if_pos h0]
    exact List.cons_ne_nil _ _
  · rw [if_neg h0]
    exact toDigitsCore_ne_nil n (n / 10) _ (List.cons_ne_nil _ _)

theorem natRepr_toList (n : Nat) :
    (toString n).toList = Nat.toDigits 10 n := rfl

/-- Claim C2: for an input recipe without an id, `addMyRecipe` appends to the
stored collection a record whose id is `"user_"` followed by the decimal
digits of the timestamp (a nonempty all-digit string), whose category is
forced to `"myfood"`, whose remaining fields equal the input's, and returns
that record. -/
theorem addMyRecipe_spec (recipes : List Recipe) (input : Recipe) (now : Nat)
    (_h : input.id = none) :
    (addMyRecipe recipes input now).1
      = recipes ++ [(addMyRecipe recipes input now).2] ∧
    (addMyRecipe recipes input now).2.id = some ("user_" ++ toString now) ∧
    (toString now).toList ≠ [] ∧
    (∀ c ∈ (toString now).toList, c.isDigit = true) ∧
    (addMyRecipe recipes input now).2.category = some "myfood" ∧
    (addMyRecipe recipes input now).2.name = input.name ∧
    (addMyRecipe recipes input now).2.image = input.image ∧
    (addMyRecipe recipes input now).2.prepTime = input.prepTime ∧
    (addMyRecipe recipes input now).2.servings = input.servings ∧
    (addMyRecipe recipes input now).2.calories = input.calories ∧
    (addMyRecipe recipes input now).2.difficulty = input.difficulty ∧
    (addMyRecipe recipes input now).2.ingredients = input.ingredients ∧
    (addMyRecipe recipes input now).2.instructions = input.instructions := by
  refine ⟨rfl, rfl, ?_, ?_, rfl, rfl, rfl, rfl, rfl, rfl, rfl, rfl, rfl⟩
  · rw [natRepr_toList]
    exact toDigits_ne_nil now
  · rw [natRepr_toList]
    exact toDigitsCore_all_digits (now + 1) now [] (by intro c hc; cases hc)

/-- Concrete input for the `addMyRecipe_spec` witness:
`{name: "Tacos", prepTime: "10 min", servings: 2}`. -/
def tacosInput : Recipe :=
  { Recipe.empty with
    name := some "Tacos",
    prepTime := some "10 min",
    servings := some 2 }

/-- Concrete instantiation of `addMyRecipe_spec` at the empty stored
collection, the `tacosInput` record, and timestamp `1700000000000`. -/
theorem addMyRecipe_spec_witness :
    (addMyRecipe [] tacosInput 1700000000000).1
      = [] ++ [(addMyRecipe [] tacosInput 1700000000000).2] ∧
    (addMyRecipe [] tacosInput 1700000000000).2.id
      = some ("user_" ++ toString 1700000000000) ∧
    (toString 1700000000000).toList ≠ [] ∧
    (toString 1700000000000).toList.all Char.isDigit = true ∧
    (addMyRecipe [] tacosInput 1700000000000).2.category = some "myfood" ∧
    (addMyRecipe [] tacosInput 1700000000000).2.name = tacosInput.name ∧
    (addMyRecipe [] tacosInput 1700000000000).2.image = tacosInput.image ∧
    (addMyRecipe [] tacosInput 1700000000000).2.prepTime
      = tacosInput.prepTime ∧
    (addMyRecipe [] tacosInput 1700000000000).2.servings
      = tacosInput.servings ∧
    (addMyRecipe [] tacosInput 1700000000000).2.calories
      = tacosInput.calories ∧
    (addMyRecipe [] tacosInput 1700000000000).2.difficulty
      = tacosInput.difficulty ∧
    (addMyRecipe [] tacosInput 1700000000000).2.ingredients
      = tacosInput.ingredients ∧
    (addMyRecipe [] tacosInput 1700000000000).2.instructions
      = tacosInput.instructions := by
  obtain ⟨h1, h2, h3, h4, h5, h6, h7, h8, h9, h10, h11, h12, h13⟩ :=
    addMyRecipe_spec [] tacosInput 1700000000000 rfl
  exact ⟨h1, h2, h3, List.all_eq_true.mpr h4, h5, h6, h7, h8, h9, h10, h11,
    h12, h13⟩

-- ── storage.js: updateMyRecipe ─────────────────────────────────────────────

/-- One field of the JavaScript spread `{...old, ...upd}`: the update's value
wins when the key is present in the update, otherwise the old value stays. -/
def overrideField {α : Type} (upd old : Option α) : Option α :=
  match upd with
  | some v => some v
  | none => old

/-- The JavaScript shallow merge `{...recipes[index], ...updatedRecipe}` from
`updateMyRecipe` in `storage.js`, written out field by field. -/
def mergeRecipe (old upd : Recipe) : Recipe :=
  { id := overrideField upd.id old.id,
    name := overrideField upd.name old.name,
    image := overrideField upd.image old.image,
    prepTime := overrideField upd.prepTime old.prepTime,
    servings := overrideField upd.servings old.servings,
    calories := overrideField upd.calories old.calories,
    difficulty := overrideField upd.difficulty old.difficulty,
    category := overrideField upd.category old.category,
    ingredients := overrideField upd.ingredients old.ingredients,
    instructions := overrideField upd.instructions old.instructions }

/-- `updateMyRecipe` from `storage.js` (the non-throwing path):
`findIndex((r) => r.id === updatedRecipe.id)` locates the first record whose
id equals the update's id; if found, that slot is replaced by the shallow
merge and the collection persisted; if not found nothing is written, so the
stored collection is unchanged either way.  The recursion replaces exactly
the first matching slot, as `findIndex` + index assignment does. -/
def updateMyRecipe (recipes : List Recipe) (updatedRecipe : Recipe) :
    List Recipe :=
  match recipes with
  | [] => []
  | r :: rest =>
    if r.id = updatedRecipe.id then mergeRecipe r updatedRecipe :: rest
    else r :: updateMyRecipe rest updatedRecipe

-- ── storage.js: deleteMyRecipe ─────────────────────────────────────────────

/-- `deleteMyRecipe` from `storage.js` (the non-throwing path):
`recipes.filter((r) => r.id !== recipeId)` and persist the remainder. -/
def deleteMyRecipe (recipes : List Recipe) (recipeId : String) : List Recipe :=
  recipes.filter (fun r => r.id != some recipeId)

-- ── MainFeedScreen.js: filteredRecipes ─────────────────────────────────────

/-- The `filteredRecipes` memo of `MainFeedScreen.js`: for the `"all"`
category keep every recipe whose category is not `"myfood"`; otherwise keep
exactly the recipes whose category equals the selected category. -/
def filteredRecipes (selectedCategory : String) (allRecipes : List Recipe) :
    List Recipe :=
  if selectedCategory = "all" then
    allRecipes.filter (fun r => r.category != some "myfood")
  else
    allRecipes.filter (fun r => r.category == some selectedCategory)

theorem updateMyRecipe_not_found (recipes : List Recipe) (upd : Recipe)
    (h : ∀ r ∈ recipes, r.id ≠ upd.id) : updateMyRecipe recipes upd = recipes := by
  induction recipes with
  | nil => rfl
  | cons r rest ih =>
      have h1 : r.id ≠ upd.id := h r (List.mem_cons_self r rest)
      simp [updateMyRecipe, h1,
        ih (fun s hs => h s (List.mem_cons_of_mem r hs))]

theorem updateMyRecipe_found (a b : List Recipe) (old upd : Recipe)
    (ha : ∀ r ∈ a, r.id ≠ upd.id) (hid : old.id = upd.id) :
    updateMyRecipe (a ++ old :: b) upd = a ++ mergeRecipe old upd :: b := by
  induction a with
  | nil => simp [updateMyRecipe, hid]
  | cons r rest ih =>
      have h1 : r.id ≠ upd.id := ha r (List.mem_cons_self r rest)
      simp [updateMyRecipe, h1,
        ih (fun s hs => ha s (List.mem_cons_of_mem r hs))]

/-- Claim C3: `updateMyRecipe` is a partial shallow merge, not a replace.
When the stored collection contains a record with the update's id (and no
earlier record has that id), the result replaces exactly that record with the
field-wise merge — every field present in the update overwrites, every field
absent from the update keeps the stored value — and leaves all other records
in place; when no record carries the update's id the collection is unchanged. -/
theorem updateMyRecipe_spec (a b recipes : List Recipe) (old upd : Recipe)
    (ha : ∀ r ∈ a, r.id ≠ upd.id) (hid : old.id = upd.id)
    (habsent : ∀ r ∈ recipes, r.id ≠ upd.id) :
    updateMyRecipe (a ++ old :: b) upd = a ++ mergeRecipe old upd :: b ∧
    updateMyRecipe recipes upd = recipes ∧
    (upd.name = none → (mergeRecipe old upd).name = old.name) ∧
    (∀ v, upd.name = some v → (mergeRecipe old upd).name = some v) ∧
    (upd.image = none → (mergeRecipe old upd).image = old.image) ∧
    (∀ v, upd.image = some v → (mergeRecipe old upd).image = some v) ∧
    (upd.prepTime = none → (mergeRecipe old upd).prepTime = old.prepTime) ∧
    (∀ v, upd.prepTime = some v → (mergeRecipe old upd).prepTime = some v) ∧
    (upd.servings = none → (mergeRecipe old upd).servings = old.servings) ∧
    (∀ v, upd.servings = some v → (mergeRecipe old upd).servings = some v) ∧
    (upd.calories = none → (mergeRecipe old upd).calories = old.calories) ∧
    (∀ v, upd.calories = some v → (mergeRecipe old upd).calories = some v) ∧
    (upd.difficulty = none →
      (mergeRecipe old upd).difficulty = old.difficulty) ∧
    (∀ v, upd.difficulty = some v →
      (mergeRecipe old upd).difficulty = some v) ∧
    (upd.category = none → (mergeRecipe old upd).category = old.category) ∧
    (∀ v, upd.category = some v → (mergeRecipe old upd).category = some v) ∧
    (upd.ingredients = none →
      (mergeRecipe old upd).ingredients = old.ingredients) ∧
    (∀ v, upd.ingredients = some v →
      (mergeRecipe old upd).ingredients = some v) ∧
    (upd.instructions = none →
      (mergeRecipe old upd).instructions = old.instructions) ∧
    (∀ v, upd.instructions = some v →
      (mergeRecipe old upd).instructions = some v) := by
  refine ⟨updateMyRecipe_found a b old upd ha hid,
    updateMyRecipe_not_found recipes upd habsent, ?_, ?_, ?_, ?_, ?_, ?_,
    ?_, ?_, ?_, ?_, ?_, ?_, ?_, ?_, ?_, ?_, ?_, ?_⟩ <;>
  first
  | (intro h; simp [mergeRecipe, overrideField, h])
  | (intro v h; simp [mergeRecipe, overrideField, h])

/-- Stored record used by the `updateMyRecipe_spec` witness. -/
def storedA : Recipe :=
  { Recipe.empty with
    id := some "user_1",
    name := some "A",
    calories := some 100,
    category := some "myfood" }

/-- Update object used by the `updateMyRecipe_spec` witness: id plus a single
changed field. -/
def updCal : Recipe :=
  { Recipe.empty with
    id := some "user_1",
    calories := some 200 }

/-- Other stored record used by the `updateMyRecipe_spec` witness. -/
def storedB : Recipe :=
  { Recipe.empty with
    id := some "user_2",
    name := some "B",
    category := some "myfood" }

/-- Concrete instantiation of `updateMyRecipe_spec`: updating `user_1` with
`{id: "user_1", calories: 200}` in `[storedB, storedA]` merges into the
matching slot — `name` stays `"A"`, `calories` becomes `200` — and a
collection without `user_1` is left unchanged. -/
theorem updateMyRecipe_spec_witness :
    updateMyRecipe ([storedB] ++ storedA :: []) updCal
      = [storedB] ++ mergeRecipe storedA updCal :: [] ∧
    updateMyRecipe [storedB] updCal = [storedB] ∧
    (mergeRecipe storedA updCal).name = storedA.name ∧
    (mergeRecipe storedA updCal).name = some "A" ∧
    (mergeRecipe storedA updCal).calories = some 200 := by
  obtain ⟨hfound, hnoop, hname, -, -, -, -, -, -, -, -, hcal, -⟩ :=
    updateMyRecipe_spec [storedB] [] [storedB] storedA updCal
      (by intro r hr; rcases List.mem_singleton.mp hr with rfl; decide)
      (by decide)
      (by intro r hr; rcases List.mem_singleton.mp hr with rfl; decide)
  refine ⟨hfound, hnoop, hname rfl, ?_, hcal 200 rfl⟩
  rw [hname rfl]
  rfl

theorem deleteMyRecipe_keeps (recipes : List Recipe) (i : String)
    (h : ∀ s ∈ recipes, s.id ≠ some i) : deleteMyRecipe recipes i = recipes := by
  unfold deleteMyRecipe
  refine List.filter_eq_self.mpr ?_
  intro s hs
  exact bne_iff_ne.mpr (h s hs)

/-- Claim C6: deleting the id of one record from a collection in which no
other record carries that id yields exactly the other records in their
original relative order, and deleting an id present in no record leaves the
collection unchanged. -/
theorem deleteMyRecipe_spec (a b recipes : List Recipe) (r : Recipe)
    (i : String) (hr : r.id = some i) (ha : ∀ s ∈ a, s.id ≠ some i)
    (hb : ∀ s ∈ b, s.id ≠ some i) (habsent : ∀ s ∈ recipes, s.id ≠ some i) :
    deleteMyRecipe (a ++ r :: b) i = a ++ b ∧
    deleteMyRecipe recipes i = recipes := by
  refine ⟨?_, deleteMyRecipe_keeps recipes i habsent⟩
  have hdrop : (r.id != some i) = false := by
    rw [hr]
    simp
  unfold deleteMyRecipe
  rw [List.filter_append, List.filter_cons, hdrop]
  simp only [Bool.false_eq_true, if_false]
  rw [List.filter_eq_self.mpr (fun s hs => bne_iff_ne.mpr (ha s hs)),
    List.filter_eq_self.mpr (fun s hs => bne_iff_ne.mpr (hb s hs))]

/-- Middle record deleted by the `deleteMyRecipe_spec` witness. -/
def storedMid : Recipe :=
  { Recipe.empty with
    id := some "user_9",
    name := some "Mid",
    category := some "myfood" }

/-- Concrete instantiation of `deleteMyRecipe_spec`: deleting the middle of
three stored records keeps the outer two in order, and deleting an id held by
no record is a no-op. -/
theorem deleteMyRecipe_spec_witness :
    deleteMyRecipe ([storedA] ++ storedMid :: [storedB]) "user_9"
      = [storedA] ++ [storedB] ∧
    deleteMyRecipe [storedA, storedB] "user_9" = [storedA, storedB] :=
  deleteMyRecipe_spec [storedA] [storedB] [storedA, storedB] storedMid
    "user_9" (by decide)
    (by intro s hs; rcases List.mem_singleton.mp hs with rfl; decide)
    (by intro s hs; rcases List.mem_singleton.mp hs with rfl; decide)
    (by intro s hs
        rcases List.mem_cons.mp hs with rfl | hs
        · decide
        · rcases List.mem_singleton.mp hs with rfl; decide)

/-- Claim C9 (implicit): `deleteMyRecipe` removes every record whose id
equals the given id, not exactly one — any member of the collection either
survives into the result (when its id differs) or is absent from the result
(when its id matches), and the result is a sublist of the input. -/
theorem deleteMyRecipe_removes_all (recipes : List Recipe) (i : String)
    (r : Recipe) (hmem : r ∈ recipes) :
    (r.id = some i → r ∉ deleteMyRecipe recipes i) ∧
    (r.id ≠ some i → r ∈ deleteMyRecipe recipes i) ∧
    (deleteMyRecipe recipes i).Sublist recipes := by
  refine ⟨?_, ?_, List.filter_sublist recipes⟩
  · intro hid hin
    have := (List.mem_filter.mp hin).2
    rw [hid] at this
    simp at this
  · intro hid
    exact List.mem_filter.mpr ⟨hmem, bne_iff_ne.mpr hid⟩

/-- Duplicate of `storedMid`'s id with a different name, for the
`deleteMyRecipe_removes_all` witness. -/
def storedMidDup : Recipe :=
  { Recipe.empty with
    id := some "user_9",
    name := some "MidCopy",
    category := some "myfood" }

/-- Concrete instantiation of `deleteMyRecipe_removes_all` on a collection
holding two records that share the id `"user_9"`: one delete call removes
both (shown here for `storedMidDup`; the same theorem at `storedMid` removes
the other). -/
theorem deleteMyRecipe_removes_all_witness :
    (storedMidDup.id = some "user_9" →
      storedMidDup ∉ deleteMyRecipe [storedMid, storedMidDup, storedA] "user_9") ∧
    (storedMidDup.id ≠ some "user_9" →
      storedMidDup ∈ deleteMyRecipe [storedMid, storedMidDup, storedA] "user_9") ∧
    (deleteMyRecipe [storedMid, storedMidDup, storedA] "user_9").Sublist
      [storedMid, storedMidDup, storedA] :=
  deleteMyRecipe_removes_all [storedMid, storedMidDup, storedA] "user_9"
    storedMidDup (by decide)

/-- Claim C4: the Main Feed filter keeps, in source order, exactly the
recipes whose category is not `"myfood"` when the selected category is
`"all"`, and exactly the recipes whose category equals the selected category
otherwise; in both cases the result is a sublist of the input. -/
theorem filteredRecipes_spec (cat : String) (rs : List Recipe) :
    (filteredRecipes cat rs).Sublist rs ∧
    (cat = "all" →
      filteredRecipes cat rs
        = rs.filter (fun r => decide (¬ r.category = some "myfood"))) ∧
    (cat ≠ "all" →
      filteredRecipes cat rs
        = rs.filter (fun r => decide (r.category = some cat))) := by
  refine ⟨?_, ?_, ?_⟩
  · unfold filteredRecipes
    split
    · exact List.filter_sublist rs
    · exact List.filter_sublist rs
  · intro h
    rw [filteredRecipes, if_pos h]
    refine List.filter_congr ?_
    intro r _
    by_cases hc : r.category = some "myfood" <;> simp [hc]
  · intro h
    rw [filteredRecipes, if_neg h]
    refine List.filter_congr ?_
    intro r _
    by_cases hc : r.category = some cat <;> simp [hc]

/-- Catalog breakfast recipe for the `filteredRecipes_spec` witness. -/
def rBreakfast : Recipe :=
  { Recipe.empty with
    id := some "1",
    name := some "Pancakes",
    category := some "breakfast" }

/-- Catalog lunch recipe for the `filteredRecipes_spec` witness. -/
def rLunch : Recipe :=
  { Recipe.empty with
    id := some "2",
    name := some "Sandwich",
    category := some "lunch" }

/-- User-authored recipe for the `filteredRecipes_spec` witness. -/
def rUser : Recipe :=
  { Recipe.empty with
    id := some "user_3",
    name := some "Stew",
    category := some "myfood" }

/-- Concrete instantiation of `filteredRecipes_spec`: on a catalog with a
breakfast recipe, a lunch recipe and one user-authored recipe, selecting
`"all"` keeps the two catalog recipes and drops the `myfood` one, while
selecting `"lunch"` keeps exactly the lunch recipe. -/
theorem filteredRecipes_spec_witness :
    filteredRecipes "all" [rBreakfast, rLunch, rUser]
      = [rBreakfast, rLunch, rUser].filter
          (fun r => decide (¬ r.category = some "myfood")) ∧
    filteredRecipes "lunch" [rBreakfast, rLunch, rUser]
      = [rBreakfast, rLunch, rUser].filter
          (fun r => decide (r.category = some "lunch")) ∧
    filteredRecipes "all" [rBreakfast, rLunch, rUser]
      = [rBreakfast, rLunch] ∧
    filteredRecipes "lunch" [rBreakfast, rLunch, rUser] = [rLunch] :=
  ⟨(filteredRecipes_spec "all" [rBreakfast, rLunch, rUser]).2.1 rfl,
   (filteredRecipes_spec "lunch" [rBreakfast, rLunch, rUser]).2.2 (by decide),
   by decide, by decide⟩

-- ── JavaScript string/number primitives used by the form screens ───────────

/-- The whitespace characters relevant to this app's inputs, as skipped by
JavaScript `trim()` and `parseInt`. -/
def isJsSpace (c : Char) : Bool :=
  c == ' ' || c == '\t' || c == '\n' || c == '\r'

/-- JavaScript `String.prototype.trim()`: drop leading and trailing
whitespace. -/
def jsTrim (s : String) : String :=
  String.mk (((s.toList.dropWhile isJsSpace).reverse.dropWhile
    isJsSpace).reverse)

/-- JavaScript `String.prototype.split('\n')` on the character sequence:
every newline separates two (possibly empty) segments, and the empty string
splits to one empty segment. -/
def splitOnNewline : List Char → List (List Char)
  | [] => [[]]
  | c :: rest =>
    let r := splitOnNewline rest
    if c = '\n' then [] :: r
    else
      match r with
      | [] => [[c]]
      | h :: t => (c :: h) :: t

/-- JavaScript `text.split('\n')`. -/
def jsSplitNewline (s : String) : List String :=
  (splitOnNewline s.toList).map String.mk

/-- Value of a list of decimal digit characters. -/
def digitsVal (ds : List Char) : Nat :=
  ds.foldl (fun n c => n * 10 + (c.toNat - '0'.toNat)) 0

/-- Leading decimal-digit run of a character list, or `none` when it is
empty (JavaScript `NaN`). -/
def parseDigits (l : List Char) : Option Nat :=
  let ds := l.takeWhile Char.isDigit
  if ds.isEmpty then none else some (digitsVal ds)

/-- JavaScript `parseInt(s, 10)`: skip leading whitespace, read an optional
sign, then the longest leading run of decimal digits; `none` models `NaN`
(no digits at all). -/
def parseIntJS (s : String) : Option Int :=
  match s.toList.dropWhile isJsSpace with
  | '-' :: rest => (parseDigits rest).map (fun n => -(n : Int))
  | '+' :: rest => (parseDigits rest).map (fun n => (n : Int))
  | l => (parseDigits l).map (fun n => (n : Int))

/-- The JavaScript fallback `x || d` applied to a `parseInt` result: `NaN`
(here `none`) and `0` are falsy, every other integer is kept. -/
def jsOrInt (v : Option Int) (d : Int) : Int :=
  match v with
  | none => d
  | some n => if n = 0 then d else n

/-- The JavaScript fallback `s || d` on strings: the empty string is falsy,
every other string is kept. -/
def jsOrString (s d : String) : String :=
  if s = "" then d else s

/-- The multi-line text transform shared by the Add and Edit screens:
`text.split('\n').map((line) => line.trim()).filter((line) => line.length > 0)`. -/
def splitTrimFilter (text : String) : List String :=
  (((jsSplitNewline text).map jsTrim).filter (fun line => line.length != 0))

-- ── AddRecipeScreen.js / EditRecipeScreen.js: handleSave ───────────────────

/-- The text fields of the Add/Edit recipe form, all plain strings. -/
structure AddForm where
  name : String
  imageUrl : String
  prepTime : String
  servings : String
  calories : String
  difficulty : String
  ingredients : String
  instructions : String
deriving DecidableEq, Repr

/-- `PLACEHOLDER_IMAGE` from `AddRecipeScreen.js`. -/
def PLACEHOLDER_IMAGE : String :=
  "https://images.unsplash.com/photo-1495521821757-a1efb6729352?w=400"

/-- `handleSave` from `AddRecipeScreen.js`: `none` when the trimmed name is
empty (validation alert, nothing saved); otherwise the `newRecipe` object
passed to `addMyRecipe`, built with the trim/`||`-fallback/`parseInt`/split
logic of the source. -/
def handleSaveAdd (f : AddForm) : Option Recipe :=
  if jsTrim f.name = "" then none
  else some
    { id := none,
      name := some (jsTrim f.name),
      image := some (jsOrString (jsTrim f.imageUrl) PLACEHOLDER_IMAGE),
      prepTime := some (jsOrString (jsTrim f.prepTime) "N/A"),
      servings := some (jsOrInt (parseIntJS f.servings) 1),
      calories := some (jsOrInt (parseIntJS f.calories) 0),
      difficulty := some (jsOrString (jsTrim f.difficulty) "Easy"),
      category := none,
      ingredients := some (splitTrimFilter f.ingredients),
      instructions := some (splitTrimFilter f.instructions) }

/-- `handleSave` from `EditRecipeScreen.js`: like the Add screen but keeps
the edited recipe's id, falls back to the existing image then `''`, and
forces `category: 'myfood'`. -/
def handleSaveEdit (f : AddForm) (recipe : Recipe) : Option Recipe :=
  if jsTrim f.name = "" then none
  else some
    { id := recipe.id,
      name := some (jsTrim f.name),
      image := some (jsOrString (jsTrim f.imageUrl)
        (jsOrString (recipe.image.getD "") "")),
      prepTime := some (jsOrString (jsTrim f.prepTime) "N/A"),
      servings := some (jsOrInt (parseIntJS f.servings) 1),
      calories := some (jsOrInt (parseIntJS f.calories) 0),
      difficulty := some (jsOrString (jsTrim f.difficulty) "Easy"),
      category := some "myfood",
      ingredients := some (splitTrimFilter f.ingredients),
      instructions := some (splitTrimFilter f.instructions) }

/-- Claim C7: both save handlers store for the ingredients and instructions
text exactly the newline-split, per-line-trimmed, nonempty lines; on the
input `"flour\n\n2 eggs\n  \nmilk"` that is `["flour", "2 eggs", "milk"]`. -/
theorem splitTrimFilter_spec (f : AddForm) (base r e : Recipe)
    (hr : handleSaveAdd f = some r) (he : handleSaveEdit f base = some e) :
    r.ingredients = some (splitTrimFilter f.ingredients) ∧
    r.instructions = some (splitTrimFilter f.instructions) ∧
    e.ingredients = some (splitTrimFilter f.ingredients) ∧
    e.instructions = some (splitTrimFilter f.instructions) ∧
    splitTrimFilter "flour\n\n2 eggs\n  \nmilk" = ["flour", "2 eggs", "milk"] := by
  by_cases hn : jsTrim f.name = ""
  · rw [handleSaveAdd, if_pos hn] at hr
    exact absurd hr (by simp)
  · rw [handleSaveAdd, if_neg hn] at hr
    rw [handleSaveEdit, if_neg hn] at he
    obtain rfl := Option.some.inj hr
    obtain rfl := Option.some.inj he
    exact ⟨rfl, rfl, rfl, rfl, by decide⟩

/-- Form input for the `splitTrimFilter_spec` witness. -/
def addForm0 : AddForm :=
  { name := "Cake", imageUrl := "", prepTime := "", servings := "2",
    calories := "300", difficulty := "",
    ingredients := "flour\n\n2 eggs\n  \nmilk", instructions := "mix\nbake" }

/-- Record built by `handleSaveAdd` on `addForm0`. -/
def addSaved0 : Recipe :=
  { id := none, name := some "Cake", image := some PLACEHOLDER_IMAGE,
    prepTime := some "N/A", servings := some 2, calories := some 300,
    difficulty := some "Easy", category := none,
    ingredients := some ["flour", "2 eggs", "milk"],
    instructions := some ["mix", "bake"] }

/-- Record built by `handleSaveEdit` on `addForm0` over `storedA`. -/
def editSaved0 : Recipe :=
  { addSaved0 with
    id := some "user_1",
    image := some "",
    category := some "myfood" }

/-- Concrete instantiation of `splitTrimFilter_spec` at `addForm0`, whose
ingredients text is the spec's example `"flour\n\n2 eggs\n  \nmilk"`. -/
theorem splitTrimFilter_spec_witness :
    addSaved0.ingredients = some (splitTrimFilter addForm0.ingredients) ∧
    addSaved0.instructions = some (splitTrimFilter addForm0.instructions) ∧
    editSaved0.ingredients = some (splitTrimFilter addForm0.ingredients) ∧
    editSaved0.instructions = some (splitTrimFilter addForm0.instructions) ∧
    splitTrimFilter "flour\n\n2 eggs\n  \nmilk" = ["flour", "2 eggs", "milk"] :=
  splitTrimFilter_spec addForm0 storedA addSaved0 editSaved0 (by decide)
    (by decide)

/-- Form input whose servings and calories texts are both `"0"`. -/
def zeroForm : AddForm :=
  { name := "Z", imageUrl := "", prepTime := "", servings := "0",
    calories := "0", difficulty := "", ingredients := "", instructions := "" }

/-- Counterexample to claim C8 as stated: the servings text `"0"` is
parseable (it parses to the integer `0`), yet the built record stores
`servings == 1`, not the parsed integer, because `parseInt(servings) || 1`
treats the parsed `0` as falsy. -/
theorem handleSaveAdd_zero_servings_cex :
    parseIntJS "0" = some 0 ∧
    (handleSaveAdd zeroForm).map Recipe.servings = some (some 1) ∧
    some (some (1 : Int)) ≠ some (some (0 : Int)) := by decide

/-- Claim C8 (amended): on Add-form save, a servings text with no parseable
integer stores `servings == 1` and a calories text with no parseable integer
stores `calories == 0` (the blank text parses to nothing); a parse result of
`0` also falls back to those defaults; any nonzero parse result is stored as
parsed. -/
theorem handleSaveAdd_numeric_fallbacks (f : AddForm) (r : Recipe) (v : Int)
    (h : handleSaveAdd f = some r) :
    (parseIntJS f.servings = none → r.servings = some 1) ∧
    (parseIntJS f.calories = none → r.calories = some 0) ∧
    (parseIntJS f.servings = some 0 → r.servings = some 1) ∧
    (parseIntJS f.calories = some 0 → r.calories = some 0) ∧
    (parseIntJS f.servings = some v → v ≠ 0 → r.servings = some v) ∧
    (parseIntJS f.calories = some v → v ≠ 0 → r.calories = some v) ∧
    parseIntJS "" = none := by
  by_cases hn : jsTrim f.name = ""
  · rw [handleSaveAdd, if_pos hn] at h
    exact absurd h (by simp)
  · rw [handleSaveAdd, if_neg hn] at h
    obtain rfl := Option.some.inj h
    refine ⟨?_, ?_, ?_, ?_, ?_, ?_, by decide⟩
    · intro hp
      show some (jsOrInt (parseIntJS f.servings) 1) = some 1
      rw [hp]
      rfl
    · intro hp
      show some (jsOrInt (parseIntJS f.calories) 0) = some 0
      rw [hp]
      rfl
    · intro hp
      show some (jsOrInt (parseIntJS f.servings) 1) = some 1
      rw [hp]
      decide
    · intro hp
      show some (jsOrInt (parseIntJS f.calories) 0) = some 0
      rw [hp]
      decide
    · intro hp hv
      show some (jsOrInt (parseIntJS f.servings) 1) = some v
      rw [hp]
      simp [jsOrInt, hv]
    · intro hp hv
      show some (jsOrInt (parseIntJS f.calories) 0) = some v
      rw [hp]
      simp [jsOrInt, hv]

/-- Form input for the `handleSaveAdd_numeric_fallbacks` witness: servings
text `"abc"` (unparseable), calories text blank. -/
def abcForm : AddForm :=
  { name := "X", imageUrl := "", prepTime := "", servings := "abc",
    calories := "", difficulty := "", ingredients := "", instructions := "" }

/-- Record built by `handleSaveAdd` on `abcForm`. -/
def abcSaved : Recipe :=
  { id := none, name := some "X", image := some PLACEHOLDER_IMAGE,
    prepTime := some "N/A", servings := some 1, calories := some 0,
    difficulty := some "Easy", category := none, ingredients := some [],
    instructions := some [] }

/-- Concrete instantiation of `handleSaveAdd_numeric_fallbacks` at `abcForm`:
servings `"abc"` stores `1`, blank calories stores `0`. -/
theorem handleSaveAdd_numeric_fallbacks_witness :
    abcSaved.servings = some 1 ∧ abcSaved.calories = some 0 ∧
    parseIntJS "" = none := by
  obtain ⟨h1, h2, -, -, -, -, h7⟩ :=
    handleSaveAdd_numeric_fallbacks abcForm abcSaved 5 (by decide)
  exact ⟨h1 (by decide), h2 (by decide), h7⟩

/-- Claim C10 (implicit): the Add and Edit form fallbacks also coerce an
explicit zero — the servings text `"0"` stores `servings == 1`, while the
calories text `"0"` stores `calories == 0`. -/
theorem handleSave_zero_coercion (f : AddForm) (base r e : Recipe)
    (hr : handleSaveAdd f = some r) (he : handleSaveEdit f base = some e)
    (hs : f.servings = "0") (hc : f.calories = "0") :
    r.servings = some 1 ∧ r.calories = some 0 ∧
    e.servings = some 1 ∧ e.calories = some 0 := by
  by_cases hn : jsTrim f.name = ""
  · rw [handleSaveAdd, if_pos hn] at hr
    exact absurd hr (by simp)
  · rw [handleSaveAdd, if_neg hn] at hr
    rw [handleSaveEdit, if_neg hn] at he
    obtain rfl := Option.some.inj hr
    obtain rfl := Option.some.inj he
    refine ⟨?_, ?_, ?_, ?_⟩
    · show some (jsOrInt (parseIntJS f.servings) 1) = some 1
      rw [hs]
      decide
    · show some (jsOrInt (parseIntJS f.calories) 0) = some 0
      rw [hc]
      decide
    · show some (jsOrInt (parseIntJS f.servings) 1) = some 1
      rw [hs]
      decide
    · show some (jsOrInt (parseIntJS f.calories) 0) = some 0
      rw [hc]
      decide

/-- Record built by `handleSaveAdd` on `zeroForm`. -/
def zeroSaved : Recipe :=
  { id := none, name := some "Z", image := some PLACEHOLDER_IMAGE,
    prepTime := some "N/A", servings := some 1, calories := some 0,
    difficulty := some "Easy", category := none, ingredients := some [],
    instructions := some [] }

/-- Record built by `handleSaveEdit` on `zeroForm` over `storedA`. -/
def zeroEditSaved : Recipe :=
  { zeroSaved with
    id := some "user_1",
    image := some "",
    category := some "myfood" }

/-- Concrete instantiation of `handleSave_zero_coercion` at `zeroForm`:
both screens store `servings == 1` and `calories == 0` for the texts `"0"`. -/
theorem handleSave_zero_coercion_witness :
    zeroSaved.servings = some 1 ∧ zeroSaved.calories = some 0 ∧
    zeroEditSaved.servings = some 1 ∧ zeroEditSaved.calories = some 0 :=
  handleSave_zero_coercion zeroForm storedA zeroSaved zeroEditSaved
    (by decide) (by decide) rfl rfl

-- ── storage.js: error handling (try/catch wrappers) ────────────────────────

/-- Outcome of an underlying `AsyncStorage.getItem` + `JSON.parse` step: a
value (`ok none` when the key holds nothing, `ok (some v)` when it parses to
`v`), or a thrown error (`thrown`). -/
inductive JsOutcome (α : Type) where
  | ok : α → JsOutcome α
  | thrown : JsOutcome α
deriving DecidableEq

/-- `getFavorites` from `storage.js`: the parsed value when the read
succeeds, the empty array when nothing is stored, and — via the `catch`
handler — the empty array when the read or parse throws.  The return type is
a plain list: no exception escapes. -/
def getFavoritesRun (read : JsOutcome (Option (List String))) : List String :=
  match read with
  | .ok (some favs) => favs
  | .ok none => []
  | .thrown => []

/-- `getMyRecipes` from `storage.js`: same shape as `getFavoritesRun`. -/
def getMyRecipesRun (read : JsOutcome (Option (List Recipe))) : List Recipe :=
  match read with
  | .ok (some recipes) => recipes
  | .ok none => []
  | .thrown => []

/-- `saveFavorites` from `storage.js`, as its effect on the stored cell: the
new array when `setItem` succeeds, the previous cell contents when it throws
(the `catch` handler only logs).  No exception escapes. -/
def saveFavoritesRun (stored : Option (List String))
    (favorites : List String) (writeOk : Bool) : Option (List String) :=
  if writeOk then some favorites else stored

/-- `saveMyRecipes` from `storage.js`: same shape as `saveFavoritesRun`. -/
def saveMyRecipesRun (stored : Option (List Recipe))
    (recipes : List Recipe) (writeOk : Bool) : Option (List Recipe) :=
  if writeOk then some recipes else stored

/-- `toggleFavorite` from `storage.js` with its `try/catch`: `innerThrow`
models any failure inside the `try` block (for instance a stored value that
is not an array), in which case the `catch` handler returns `[]`. -/
def toggleFavoriteRun (read : JsOutcome (Option (List String)))
    (recipeId : String) (innerThrow : Bool) : List String :=
  if innerThrow then []
  else toggleFavorite (getFavoritesRun read) recipeId

/-- `addMyRecipe` from `storage.js` with its `try/catch`: on an inner
failure the `catch` handler returns `null` (`none`). -/
def addMyRecipeRun (read : JsOutcome (Option (List Recipe)))
    (recipe : Recipe) (now : Nat) (innerThrow : Bool) : Option Recipe :=
  if innerThrow then none
  else some (addMyRecipe (getMyRecipesRun read) recipe now).2

/-- `updateMyRecipe` from `storage.js` with its `try/catch`, as its effect on
the stored cell: on an inner failure the `catch` handler only logs, so the
cell is untouched; with no failure, the merged collection is written only
when a record with the update's id exists. -/
def updateMyRecipeRun (stored : Option (List Recipe)) (upd : Recipe)
    (innerThrow : Bool) : Option (List Recipe) :=
  if innerThrow then stored
  else if (getMyRecipesRun (.ok stored)).any (fun r => r.id == upd.id) then
    some (updateMyRecipe (getMyRecipesRun (.ok stored)) upd)
  else stored

/-- `deleteMyRecipe` from `storage.js` with its `try/catch`, as its effect on
the stored cell: on an inner failure the cell is untouched. -/
def deleteMyRecipeRun (stored : Option (List Recipe)) (recipeId : String)
    (innerThrow : Bool) : Option (List Recipe) :=
  if innerThrow then stored
  else some (deleteMyRecipe (getMyRecipesRun (.ok stored)) recipeId)

/-- Claim C5: no persistence operation lets a failure escape — each wrapper
is a total function into plain values.  On a read/parse failure (or a missing
key) `getFavoritesRun` and `getMyRecipesRun` return the empty sequence; on an
inner failure `toggleFavoriteRun` returns the empty sequence and
`addMyRecipeRun` returns `none`; `saveFavoritesRun` and `saveMyRecipesRun`
leave the stored cell untouched when the write throws, and
`updateMyRecipeRun` and `deleteMyRecipeRun` leave it untouched on an inner
failure. -/
theorem storage_no_throw (stF : Option (List String))
    (stR : Option (List Recipe)) (favs : List String) (rs : List Recipe)
    (read : JsOutcome (Option (List String)))
    (readR : JsOutcome (Option (List Recipe))) (x : String)
    (rec upd : Recipe) (now : Nat) :
    getFavoritesRun .thrown = [] ∧
    getFavoritesRun (.ok none) = [] ∧
    getMyRecipesRun .thrown = [] ∧
    getMyRecipesRun (.ok none) = [] ∧
    toggleFavoriteRun read x true = [] ∧
    addMyRecipeRun readR rec now true = none ∧
    saveFavoritesRun stF favs false = stF ∧
    saveMyRecipesRun stR rs false = stR ∧
    updateMyRecipeRun stR upd true = stR ∧
    deleteMyRecipeRun stR x true = stR :=
  ⟨rfl, rfl, rfl, rfl, rfl, rfl, rfl, rfl, rfl, rfl⟩
